import Mathlib

/-!
# Verification of the limail webhook relay (src/main.rs)

A shallow embedding of the program's core, translated from `src/main.rs`:

* the deduplication log (`LastResponseLog` with `is_too_old`, `can_send`,
  `log_send`, `clear_old`);
* the body normalization function `unify_new_lines`;
* the error boundary `recover_error`;
* the multipart adapter `multipart_to_mailgun`;
* the two request flows `send_no_reply_template` and `forward_email_to_slack`.

Modelling conventions:

* `DateTime<Utc>` values are modelled as `Int` seconds since the epoch.
  Each call to `Utc::now()` in the source is modelled by an explicit
  `now : Int` parameter threaded into the function; a single request
  handler observes one such instant.
* chrono's `Duration::num_minutes` truncates toward zero
  (`num_seconds / 60` with Rust integer division), hence `Int.tdiv`.
* The concurrent map `CHashMap<String, DateTime<Utc>>` is modelled as an
  association list with the map operations the source uses (`get`,
  `insert`, `retain`, all taking the map and returning the value read
  and / or the updated map).  `CHashMap::get` takes a read guard and
  performs no mutation, which the embedding makes explicit by returning
  the untouched map.  A `CHashMap` holds at most one entry per key, so
  list states whose keys are `Nodup` are the reachable states.
* The `mailgun` and `slack` modules are declared in `main.rs` but their
  source is not part of the repository; their observable outcomes
  (HMAC check, message-id extraction, outbound send results) are
  modelled from the spec as oracle records passed to the flows, and the
  outbound calls themselves are recorded in the flow's outcome so that
  "no outbound call is made" is expressible.
-/

/-! ## Deduplication log (`LastResponseLog`, main.rs lines 81-115) -/

/-- `struct Minutes(pub i64)` from main.rs. -/
structure Minutes where
  val : Int
  deriving DecidableEq, Repr

/-- The deduplication map state: `CHashMap<String, DateTime<Utc>>`
modelled as an association list from address to last-send timestamp
(seconds since epoch). -/
abbrev DedupMap := List (String × Int)

/-- `CHashMap::get`: read the first (unique, in reachable states) entry
for a key.  Takes a read guard only; the map is not modified. -/
def chashmap_get (m : DedupMap) (k : String) : Option Int × DedupMap :=
  ((m.find? (fun kv => kv.1 == k)).map Prod.snd, m)

/-- Lookup of a key in the map state (the value component of
`chashmap_get`). -/
def lookupAddr (m : DedupMap) (k : String) : Option Int :=
  (m.find? (fun kv => kv.1 == k)).map Prod.snd

/-- `CHashMap::retain`: keep exactly the entries satisfying the
predicate. -/
def chashmap_retain (m : DedupMap) (p : String → Int → Bool) : DedupMap :=
  m.filter (fun kv => p kv.1 kv.2)

/-- `CHashMap::insert`: insert or overwrite the entry for a key. -/
def chashmap_insert (m : DedupMap) (k : String) (v : Int) : DedupMap :=
  (k, v) :: m.filter (fun kv => !(kv.1 == k))

/-- `struct LastResponseLog` from main.rs. -/
structure LastResponseLog where
  time_between_responses : Minutes
  last_response_date : DedupMap
  deriving DecidableEq, Repr

/-- chrono `Duration::num_minutes` on a whole-seconds duration:
`num_seconds / 60` with Rust (truncating) integer division. -/
def num_minutes (secs : Int) : Int :=
  Int.tdiv secs 60

/-- `LastResponseLog::is_too_old`:
`(Utc::now() - *dt).num_minutes() > self.time_between_responses.0`. -/
def is_too_old (log : LastResponseLog) (now dt : Int) : Bool :=
  decide (num_minutes (now - dt) > log.time_between_responses.val)

/-- `LastResponseLog::can_send`: look the address up (a read-only map
access), and report whether the entry is absent or too old.  The second
component is the map state after the call. -/
def can_send (log : LastResponseLog) (now : Int) (email : String) :
    Bool × LastResponseLog :=
  let g := chashmap_get log.last_response_date email
  (match g.1 with
   | some v => is_too_old log now v
   | none => true,
   { log with last_response_date := g.2 })

/-- `LastResponseLog::clear_old`: retain exactly the entries that are
not too old. -/
def clear_old (log : LastResponseLog) (now : Int) : LastResponseLog :=
  { log with
    last_response_date :=
      chashmap_retain log.last_response_date
        (fun _ v => !(is_too_old log now v)) }

/-- `LastResponseLog::log_send`: clear old entries, then insert or
overwrite the entry for the address with the current timestamp. -/
def log_send (log : LastResponseLog) (now : Int) (email : String) :
    LastResponseLog :=
  let log2 := clear_old log now
  { log2 with
    last_response_date :=
      chashmap_insert log2.last_response_date email now }

/-! ### Association-list lemmas for the dedup map -/

theorem lookupAddr_nil (k : String) : lookupAddr [] k = none := rfl

theorem lookupAddr_cons (a : String × Int) (m : DedupMap) (k : String) :
    lookupAddr (a :: m) k =
      if a.1 = k then some a.2 else lookupAddr m k := by
  by_cases h : a.1 = k <;>
    simp [lookupAddr, List.find?_cons, h]

theorem lookupAddr_eq_none_of_not_mem_keys (m : DedupMap) (k : String)
    (h : k ∉ m.map Prod.fst) : lookupAddr m k = none := by
  induction m with
  | nil => rfl
  | cons a m ih =>
    rw [lookupAddr_cons]
    simp only [List.map_cons, List.mem_cons] at h
    push_neg at h
    rw [if_neg (fun he => h.1 he.symm)]
    exact ih h.2

theorem lookupAddr_filter (m : DedupMap) (p : String × Int → Bool)
    (k : String) (hnd : (m.map Prod.fst).Nodup) :
    lookupAddr (m.filter p) k =
      (lookupAddr m k).bind (fun v => if p (k, v) then some v else none) := by
  induction m with
  | nil => rfl
  | cons a m ih =>
    simp only [List.map_cons, List.nodup_cons] at hnd
    rcases a with ⟨ka, va⟩
    by_cases hk : ka = k
    · subst hk
      by_cases hp : p (ka, va)
      · simp [List.filter_cons, hp, lookupAddr_cons]
      · have hnm : ka ∉ (m.filter p).map Prod.fst := fun hmem =>
          hnd.1 (List.Sublist.mem hmem ((List.filter_sublist m).map Prod.fst))
        rw [List.filter_cons, if_neg (by simp [hp]), lookupAddr_cons,
          if_pos rfl, lookupAddr_eq_none_of_not_mem_keys _ _ hnm]
        simp [hp]
    · by_cases hp : p (ka, va)
      · simp only [List.filter_cons, hp, if_true, lookupAddr_cons, hk,
          if_false]
        exact ih hnd.2
      · simp only [List.filter_cons, hp, Bool.false_eq_true, if_false,
          lookupAddr_cons, hk, if_false]
        exact ih hnd.2

/-! ## Body normalization (`unify_new_lines`, main.rs lines 339-353)

The Rust function is
`value.split("\n").map(|s| s.trim()).filter(<stateful blank-run filter>)
  .collect::<Vec<&str>>().join("\n")`.
Strings are modelled through their character lists.  Rust `str::trim`
strips Unicode `White_Space` characters from both ends; the model uses
`Char.isWhitespace` (space, tab, carriage return, newline), which agrees
with it on the ASCII whitespace the claims exercise. -/

/-- `str::split("\n")`: split a character list on the newline character.
Splitting the empty string yields one empty piece, as in Rust. -/
def splitNl : List Char → List (List Char)
  | [] => [[]]
  | c :: cs =>
    if c = '\n' then [] :: splitNl cs
    else
      match splitNl cs with
      | [] => [[c]]
      | l :: ls => (c :: l) :: ls

/-- `str::trim`: drop whitespace from both ends. -/
def trimChars (s : List Char) : List Char :=
  ((s.dropWhile Char.isWhitespace).reverse.dropWhile Char.isWhitespace).reverse

/-- The stateful `filter` closure of `unify_new_lines`, with the running
`count` of consecutive blank lines threaded explicitly: an empty line
increments the count and is kept only when it is the first of its run; a
non-empty line resets the count and is kept. -/
def collapseBlanks : Nat → List (List Char) → List (List Char)
  | _, [] => []
  | count, s :: rest =>
    if s.length = 0 then
      if count + 1 ≤ 1 then s :: collapseBlanks (count + 1) rest
      else collapseBlanks (count + 1) rest
    else s :: collapseBlanks 0 rest

/-- `Vec::join("\n")`: interleave the pieces with newline characters. -/
def joinLines : List (List Char) → List Char
  | [] => []
  | [l] => l
  | l :: l2 :: ls => l ++ '\n' :: joinLines (l2 :: ls)

/-- `unify_new_lines` on character lists. -/
def unifyChars (s : List Char) : List Char :=
  joinLines (collapseBlanks 0 ((splitNl s).map trimChars))

/-- `fn unify_new_lines(value: &String) -> String` from main.rs. -/
def unify_new_lines (value : String) : String :=
  String.mk (unifyChars value.data)

theorem length_dropWhile_le {α : Type} (p : α → Bool) (l : List α) :
    (l.dropWhile p).length ≤ l.length :=
  (List.dropWhile_sublist p).length_le

/-- The spec's description of blank-line collapsing, written from the
spec's words: after the first blank line of a run, drop the rest of the
run; every run of two or more consecutive blank lines collapses to
exactly one. -/
def collapseRunsSpec : List (List Char) → List (List Char)
  | [] => []
  | a :: rest =>
    if a.length = 0 then
      a :: collapseRunsSpec (rest.dropWhile (fun l => l.isEmpty))
    else a :: collapseRunsSpec rest
termination_by l => l.length
decreasing_by
  · exact Nat.lt_succ_of_le (length_dropWhile_le _ _)
  · exact Nat.lt_succ_of_le (Nat.le_refl _)

/-- The spec's description of `unify_new_lines`, written from the spec's
words: split on newline characters, trim each line, collapse blank-line
runs to a single blank line, rejoin with newline characters. -/
def unify_new_lines_spec (value : String) : String :=
  String.mk (joinLines (collapseRunsSpec ((splitNl value.data).map trimChars)))

/-! ## Errors and the error boundary (main.rs lines 189-232) -/

/-- The `MailgunError` enum of the `mailgun` module as matched by
`recover_error`: a JSON decoding failure, an HMAC verification failure,
and a provider-reported error, each carrying a descriptive message. -/
inductive MailgunError where
  | JsonError (s : String)
  | HmacError (s : String)
  | MailgunError (s : String)
  deriving DecidableEq, Repr

/-- `struct LimailErrorMessage` from main.rs: the JSON error body. -/
structure LimailErrorMessage where
  code : Nat
  message : String
  deriving DecidableEq, Repr

/-- `fn recover_error` from main.rs, restricted to the `MailgunError`
cause it handles: maps the error to the HTTP status code and the JSON
`{code, message}` body of the reply. -/
def recover_error : MailgunError → Nat × LimailErrorMessage
  | .JsonError s => (400, ⟨400, s⟩)
  | .HmacError s => (400, ⟨400, s⟩)
  | .MailgunError s => (500, ⟨500, s⟩)

/-- The `MultipartError` enum from main.rs. -/
inductive MultipartError where
  | MissingFields
  deriving DecidableEq, Repr

/-! ## Received email and outbound records -/

/-- `MailgunEmailReceived` from the `mailgun` module, with the eight
fields `main.rs` constructs and reads. -/
structure MailgunEmailReceived where
  sender : String
  «from» : String
  subject : String
  body_plain : String
  timestamp : Int
  token : String
  signature : String
  message_headers : String
  deriving DecidableEq, Repr

/-- `EmailTemplate` from the `mailgun` module, with the fields main.rs
fills: recipient, subject, template name, and the two threading
headers. -/
structure EmailTemplate where
  recipient : String
  subject : String
  template : String
  in_reply_to : String
  references : String
  deriving DecidableEq, Repr

/-- `SlackMessage` from the `slack` module, with the fields main.rs
fills. -/
structure SlackMessage where
  channel : String
  text : String
  thread_ts : Option String
  as_user : Bool
  deriving DecidableEq, Repr

/-- Modelled from the spec: the `slack` module's source is not in the
repository; its `send_message` response "contains at least a message
timestamp/identifier usable as a thread anchor". -/
structure SlackResponse where
  ts : String
  deriving DecidableEq, Repr

/-- Modelled from the spec: an opaque error reported by the `slack`
module's `send_message` (its source is not in the repository). -/
structure SlackError where
  msg : String
  deriving DecidableEq, Repr

/-- The failure of a forward-flow request: either the signature check's
`MailgunError` or a chat call's error. -/
inductive ForwardError where
  | mailgun : MailgunError → ForwardError
  | slack : SlackError → ForwardError
  deriving DecidableEq, Repr

/-! ## External collaborators (spec-modelled oracles)

The `mailgun` and `slack` modules are declared in `main.rs` but their
source files are not in the repository.  For one request, the flows
observe only: whether the HMAC check passes, the result of message-id
extraction, and the results of the outbound calls.  These observations
are collected in oracle records and the flows are quantified over
them. -/

deriving instance DecidableEq for Except

/-- Modelled from the spec: the observable outcomes of the `mailgun`
module for one request.  `hmac_ok` is whether the recomputed keyed hash
over timestamp and token equals the supplied signature; `message_id` is
the result of extracting a message identifier from the raw
message-headers blob (failure is the distinct "no message id found"
kind, surfaced like a provider error); `send_email_result` is the result
of the single outbound email call, if one is made. -/
structure MailgunApi where
  hmac_ok : Bool
  message_id : Except MailgunError String
  send_email_result : Except MailgunError Unit
  deriving DecidableEq, Repr

/-- Modelled from the spec: `Mailgun::verify_hmac` recomputes the keyed
hash and compares it with the signature; any mismatch fails with a
client-error kind (`HmacError`) carrying a descriptive message. -/
def verify_hmac (api : MailgunApi) : Except MailgunError Unit :=
  if api.hmac_ok then .ok () else .error (.HmacError "HMAC verification failed")

/-- Modelled from the spec: `MailgunEmailReceived::get_message_id`
extracts a message identifier from the raw headers blob; its outcome for
this request is the oracle's `message_id` field. -/
def get_message_id (api : MailgunApi) : Except MailgunError String :=
  api.message_id

/-- Modelled from the spec: the observable outcomes of the `slack`
module's `send_message` for the (at most) two calls one forward request
makes, in call order. -/
structure SlackApi where
  first_result : Except SlackError SlackResponse
  second_result : Except SlackError SlackResponse
  deriving DecidableEq, Repr

/-! ## Auto-reply flow (`send_no_reply_template`, main.rs lines 300-327) -/

/-- The observable outcome of one auto-reply request: the dedup log
state after the request, the outbound email calls made (in order), and
the HTTP-level result. -/
structure NoReplyOutcome where
  log : LastResponseLog
  emails_sent : List EmailTemplate
  result : Except MailgunError String
  deriving DecidableEq, Repr

/-- `fn send_no_reply_template` from main.rs: verify the signature,
extract the message id, and if `can_send` allows it, `log_send` then
dispatch the templated reply (subject `"Re: " + subject`, threaded via
the message id as both In-Reply-To and References); otherwise skip the
send and still succeed with `"Message Processed"`. -/
def send_no_reply_template (api : MailgunApi) (log : LastResponseLog)
    (now : Int) (template : String) (email : MailgunEmailReceived) :
    NoReplyOutcome :=
  match verify_hmac api with
  | .error e => ⟨log, [], .error e⟩
  | .ok _ =>
    match get_message_id api with
    | .error e => ⟨log, [], .error e⟩
    | .ok message_id =>
      let c := can_send log now email.«from»
      if c.1 then
        let log2 := log_send c.2 now email.«from»
        let tpl : EmailTemplate :=
          ⟨email.«from», "Re: " ++ email.subject, template,
            message_id, message_id⟩
        match api.send_email_result with
        | .error e => ⟨log2, [tpl], .error e⟩
        | .ok _ => ⟨log2, [tpl], .ok "Message Processed"⟩
      else ⟨c.2, [], .ok "Message Processed"⟩

/-! ## Forward flow (`forward_email_to_slack`, main.rs lines 355-387) -/

/-- The observable outcome of one forward request: the chat calls made
(in order) and the HTTP-level result. -/
structure ForwardOutcome where
  messages_sent : List SlackMessage
  result : Except ForwardError String
  deriving DecidableEq, Repr

/-- `fn forward_email_to_slack` from main.rs: verify the signature, send
the notification message, and only on its success send the threaded
detail message; succeed with `"Sent"` only when both calls succeed. -/
def forward_email_to_slack (api : MailgunApi) (slack : SlackApi)
    (channel_id : String) (email : MailgunEmailReceived) :
    ForwardOutcome :=
  match verify_hmac api with
  | .error e => ⟨[], .error (.mailgun e)⟩
  | .ok _ =>
    let text := "Email Received: " ++ email.subject
    let m1 : SlackMessage := ⟨channel_id, text, none, true⟩
    match slack.first_result with
    | .error e => ⟨[m1], .error (.slack e)⟩
    | .ok msg_response =>
      let slack_message :=
        "```" ++ unify_new_lines email.body_plain ++ "```\n(from: "
          ++ email.sender ++ ")"
      let m2 : SlackMessage :=
        ⟨channel_id, slack_message, some msg_response.ts, true⟩
      match slack.second_result with
      | .error e => ⟨[m1, m2], .error (.slack e)⟩
      | .ok _ => ⟨[m1, m2], .ok "Sent"⟩

/-! ## Multipart adapter (`multipart_to_mailgun`, main.rs lines 235-286) -/

/-- Rust `str::parse::<i64>` restricted to the digits: an optional sign
followed by at least one ASCII digit, nothing else.  (Overflow of `i64`,
which Rust rejects, is not modelled; the claims do not exercise it.) -/
def parseDigits : List Char → Nat → Option Nat
  | [], acc => some acc
  | c :: cs, acc =>
    if c.isDigit then parseDigits cs (acc * 10 + (c.toNat - 48)) else none

/-- Rust `str::parse::<i64>().ok()` as used for the `timestamp` part. -/
def parse_i64 (s : String) : Option Int :=
  match s.data with
  | [] => none
  | '+' :: cs =>
    if cs.isEmpty then none else (parseDigits cs 0).map Int.ofNat
  | '-' :: cs =>
    if cs.isEmpty then none else (parseDigits cs 0).map (fun n => -(n : Int))
  | cs => (parseDigits cs 0).map Int.ofNat

/-- The eight accumulator variables of `multipart_to_mailgun`. -/
structure FormFields where
  sender : Option String
  «from» : Option String
  subject : Option String
  body_plain : Option String
  timestamp : Option Int
  token : Option String
  signature : Option String
  message_headers : Option String
  deriving DecidableEq, Repr

/-- One iteration of the `for_each` loop in `multipart_to_mailgun`.  A
part is its name together with `part_to_string(part)` (which is `none`
when the bytes are not valid UTF-8).  Note the `timestamp` arm matches
only `Some(val)` and otherwise leaves the accumulator alone, while the
string-field arms overwrite the accumulator with the (possibly `none`)
decoded value. -/
def applyPart (fs : FormFields) (name : String) (val : Option String) :
    FormFields :=
  if name = "sender" then { fs with sender := val }
  else if name = "from" then { fs with «from» := val }
  else if name = "subject" then { fs with subject := val }
  else if name = "body-plain" then { fs with body_plain := val }
  else if name = "timestamp" then
    match val with
    | some v => { fs with timestamp := parse_i64 v }
    | none => fs
  else if name = "token" then { fs with token := val }
  else if name = "signature" then { fs with signature := val }
  else if name = "message-headers" then { fs with message_headers := val }
  else fs

/-- The `for_each` loop of `multipart_to_mailgun` over the decoded
parts.  (Parts whose outer `Result` is `Err` are skipped by the source's
`_ => return` arm and so do not appear in the list.) -/
def collect_fields (parts : List (String × Option String)) : FormFields :=
  parts.foldl (fun fs p => applyPart fs p.1 p.2)
    ⟨none, none, none, none, none, none, none, none⟩

/-- `fn multipart_to_mailgun` from main.rs: run the collection loop,
then build the record only when all eight fields were collected. -/
def multipart_to_mailgun (parts : List (String × Option String)) :
    Except MultipartError MailgunEmailReceived :=
  match collect_fields parts with
  | ⟨some sender, some f, some subject, some body_plain, some timestamp,
     some token, some signature, some message_headers⟩ =>
    .ok ⟨sender, f, subject, body_plain, timestamp, token, signature,
      message_headers⟩
  | _ => .error .MissingFields

/-! ## Lemmas about splitting, trimming and blank-run collapsing -/

theorem splitNl_ne_nil (s : List Char) : splitNl s ≠ [] := by
  cases s with
  | nil => simp [splitNl]
  | cons c cs =>
    rw [splitNl]
    split
    · simp
    · cases h : splitNl cs <;> simp

theorem nl_not_mem_splitNl (s : List Char) (l : List Char)
    (hl : l ∈ splitNl s) : '\n' ∉ l := by
  induction s generalizing l with
  | nil =>
    simp [splitNl] at hl
    simp [hl]
  | cons c cs ih =>
    rw [splitNl] at hl
    by_cases hc : c = '\n'
    · rw [if_pos hc] at hl
      rcases List.mem_cons.mp hl with h | h
      · simp [h]
      · exact ih l h
    · rw [if_neg hc] at hl
      rcases hsp : splitNl cs with _ | ⟨l0, ls0⟩
      · exact absurd hsp (splitNl_ne_nil cs)
      · rw [hsp] at hl
        rcases List.mem_cons.mp hl with h | h
        · subst h
          intro hmem
          rcases List.mem_cons.mp hmem with h | h
          · exact hc h.symm
          · exact ih l0 (by rw [hsp]; exact List.mem_cons_self _ _) h
        · exact ih l (by rw [hsp]; exact List.mem_cons_of_mem _ h)

theorem splitNl_no_nl (a : List Char) (h : '\n' ∉ a) : splitNl a = [a] := by
  induction a with
  | nil => rfl
  | cons c cs ih =>
    rw [splitNl, if_neg (fun hc => h (by rw [hc]; exact List.mem_cons_self _ _)),
      ih (fun hm => h (List.mem_cons_of_mem _ hm))]

theorem splitNl_append_nl (a t : List Char) (h : '\n' ∉ a) :
    splitNl (a ++ '\n' :: t) = a :: splitNl t := by
  induction a with
  | nil => simp [splitNl]
  | cons c cs ih =>
    have hc : ¬c = '\n' := fun hc => h (by rw [hc]; exact List.mem_cons_self _ _)
    rw [List.cons_append, splitNl, if_neg hc,
      ih (fun hm => h (List.mem_cons_of_mem _ hm))]

theorem splitNl_joinLines (ls : List (List Char)) (hne : ls ≠ [])
    (hnl : ∀ l ∈ ls, '\n' ∉ l) : splitNl (joinLines ls) = ls := by
  induction ls with
  | nil => exact absurd rfl hne
  | cons l ls ih =>
    cases ls with
    | nil =>
      rw [joinLines]
      exact splitNl_no_nl l (hnl l (List.mem_cons_self _ _))
    | cons l2 ls2 =>
      rw [joinLines, splitNl_append_nl _ _ (hnl l (List.mem_cons_self _ _)),
        ih (by simp) (fun x hx => hnl x (List.mem_cons_of_mem _ hx))]

theorem head_dropWhile_false {α : Type} (p : α → Bool) (l : List α)
    (c : α) (h : (l.dropWhile p).head? = some c) : p c = false := by
  induction l with
  | nil => simp [List.dropWhile] at h
  | cons a l ih =>
    rw [List.dropWhile_cons] at h
    by_cases ha : p a
    · rw [if_pos ha] at h
      exact ih h
    · rw [if_neg ha] at h
      simp only [List.head?_cons, Option.some.injEq] at h
      subst h
      exact Bool.eq_false_iff.mpr ha

theorem dropWhile_eq_self_of_head {α : Type} (p : α → Bool) (l : List α)
    (h : ∀ c, l.head? = some c → p c = false) : l.dropWhile p = l := by
  cases l with
  | nil => rfl
  | cons a l =>
    rw [List.dropWhile_cons, if_neg]
    rw [h a rfl]
    simp

theorem getLast?_dropWhile {α : Type} (p : α → Bool) (l : List α)
    (h : l.dropWhile p ≠ []) : (l.dropWhile p).getLast? = l.getLast? := by
  induction l with
  | nil => simp [List.dropWhile] at h
  | cons a l ih =>
    rw [List.dropWhile_cons]
    by_cases ha : p a
    · rw [List.dropWhile_cons, if_pos ha] at h
      rw [if_pos ha, ih h]
      cases hl : l with
      | nil => rw [hl] at h; simp [List.dropWhile] at h
      | cons b l2 => rw [List.getLast?_cons_cons]
    · rw [if_neg ha]

theorem trimChars_idem (s : List Char) :
    trimChars (trimChars s) = trimChars s := by
  unfold trimChars
  set u := s.dropWhile Char.isWhitespace with hu
  set v := u.reverse.dropWhile Char.isWhitespace with hv
  rcases hve : v with _ | ⟨c0, v0⟩
  · simp [hve]
  · rw [← hve]
    have hvne : v ≠ [] := by rw [hve]; simp
    have hhead : ∀ c, v.head? = some c → Char.isWhitespace c = false :=
      fun c hc => head_dropWhile_false _ _ c (hv ▸ hc)
    have hlast : ∀ c, v.getLast? = some c → Char.isWhitespace c = false := by
      intro c hc
      rw [hv, getLast?_dropWhile _ _ (hv ▸ hvne), List.getLast?_reverse] at hc
      exact head_dropWhile_false _ _ c (hu ▸ hc)
    have h1 : v.reverse.dropWhile Char.isWhitespace = v.reverse :=
      dropWhile_eq_self_of_head _ _
        (fun c hc => hlast c (by rw [← List.head?_reverse]; exact hc))
    rw [h1, List.reverse_reverse,
      dropWhile_eq_self_of_head _ _ hhead]

theorem mem_trimChars (s : List Char) (c : Char) (h : c ∈ trimChars s) :
    c ∈ s := by
  unfold trimChars at h
  rw [List.mem_reverse] at h
  have h2 := List.Sublist.mem h (List.dropWhile_sublist _)
  rw [List.mem_reverse] at h2
  exact List.Sublist.mem h2 (List.dropWhile_sublist _)

theorem collapseBlanks_cons_zero (x : List Char) (xs : List (List Char)) :
    collapseBlanks 0 (x :: xs) =
      x :: (if x.length = 0 then collapseBlanks 1 xs
            else collapseBlanks 0 xs) := by
  rw [collapseBlanks]
  by_cases hx : x.length = 0 <;> simp [hx]

theorem mem_collapseBlanks (c : Nat) (xs : List (List Char))
    (y : List Char) (h : y ∈ collapseBlanks c xs) : y ∈ xs := by
  induction xs generalizing c with
  | nil => simp [collapseBlanks] at h
  | cons x xs ih =>
    rw [collapseBlanks] at h
    by_cases hx : x.length = 0
    · rw [if_pos hx] at h
      by_cases hc : c + 1 ≤ 1
      · rw [if_pos hc] at h
        rcases List.mem_cons.mp h with h | h
        · exact h ▸ List.mem_cons_self _ _
        · exact List.mem_cons_of_mem _ (ih _ h)
      · rw [if_neg hc] at h
        exact List.mem_cons_of_mem _ (ih _ h)
    · rw [if_neg hx] at h
      rcases List.mem_cons.mp h with h | h
      · exact h ▸ List.mem_cons_self _ _
      · exact List.mem_cons_of_mem _ (ih _ h)

/-- No two consecutive lines of the list are both empty. -/
def noConsecBlank : List (List Char) → Prop
  | [] => True
  | [_] => True
  | a :: b :: rest => (a.length = 0 → b.length ≠ 0) ∧ noConsecBlank (b :: rest)

theorem collapseBlanks_noConsec (xs : List (List Char)) (c : Nat) :
    noConsecBlank (collapseBlanks c xs) ∧
      (1 ≤ c → ∀ y ys, collapseBlanks c xs = y :: ys → y.length ≠ 0) := by
  induction xs generalizing c with
  | nil => exact ⟨trivial, fun _ y ys h => by simp [collapseBlanks] at h⟩
  | cons x xs ih =>
    rw [collapseBlanks]
    by_cases hx : x.length = 0
    · rw [if_pos hx]
      by_cases hc : c + 1 ≤ 1
      · rw [if_pos hc]
        have hone : (1 : Nat) ≤ c + 1 := Nat.le_add_left 1 c
        refine ⟨?_, ?_⟩
        · rcases hrec : collapseBlanks (c + 1) xs with _ | ⟨y, ys⟩
          · exact trivial
          · exact ⟨fun _ => (ih (c + 1)).2 hone y ys hrec,
              hrec ▸ (ih (c + 1)).1⟩
        · intro h1c y ys hy
          omega
      · rw [if_neg hc]
        exact ⟨(ih (c + 1)).1,
          fun _ => (ih (c + 1)).2 (Nat.le_add_left 1 c)⟩
    · rw [if_neg hx]
      refine ⟨?_, fun _ y ys hy => by
        simp only [List.cons.injEq] at hy
        exact hy.1 ▸ hx⟩
      rcases hrec : collapseBlanks 0 xs with _ | ⟨y, ys⟩
      · exact trivial
      · refine ⟨fun h0 => absurd h0 hx, hrec ▸ (ih 0).1⟩

theorem collapseBlanks_eq_self (xs : List (List Char)) (c : Nat)
    (hnc : noConsecBlank xs)
    (hhd : ∀ y ys, xs = y :: ys → y.length = 0 → c = 0) :
    collapseBlanks c xs = xs := by
  induction xs generalizing c with
  | nil => rfl
  | cons x xs ih =>
    rw [collapseBlanks]
    by_cases hx : x.length = 0
    · have hc0 : c = 0 := hhd x xs rfl hx
      subst hc0
      rw [if_pos hx, if_pos (Nat.le_refl 1)]
      congr 1
      cases xs with
      | nil => rfl
      | cons x2 xs2 =>
        have hnc2 : (x.length = 0 → x2.length ≠ 0) ∧
            noConsecBlank (x2 :: xs2) := hnc
        refine ih 1 hnc2.2 ?_
        intro y ys hy hylen
        rw [List.cons.injEq] at hy
        exact absurd (hy.1.symm ▸ hylen : x2.length = 0) (hnc2.1 hx)
    · rw [if_neg hx]
      congr 1
      cases xs with
      | nil => rfl
      | cons x2 xs2 =>
        have hnc2 : (x.length = 0 → x2.length ≠ 0) ∧
            noConsecBlank (x2 :: xs2) := hnc
        exact ih 0 hnc2.2 (fun y ys hy hylen => rfl)

theorem collapseRunsSpec_nil : collapseRunsSpec [] = [] := by
  rw [collapseRunsSpec]

theorem collapseRunsSpec_cons (a : List Char) (rest : List (List Char)) :
    collapseRunsSpec (a :: rest) =
      if a.length = 0 then
        a :: collapseRunsSpec (rest.dropWhile (fun l => l.isEmpty))
      else a :: collapseRunsSpec rest := by
  rw [collapseRunsSpec]

theorem collapseBlanks_eq_spec (xs : List (List Char)) (c : Nat) :
    collapseBlanks c xs =
      if c = 0 then collapseRunsSpec xs
      else collapseRunsSpec (xs.dropWhile (fun l => l.isEmpty)) := by
  induction xs generalizing c with
  | nil =>
    rw [collapseBlanks]
    split <;> simp [collapseRunsSpec_nil]
  | cons x xs ih =>
    rw [collapseBlanks]
    by_cases hx : x.length = 0
    · have hxe : x = [] := List.length_eq_zero.mp hx
      by_cases hc : c = 0
      · subst hc
        rw [if_pos hx, if_pos (Nat.le_refl 1), if_pos rfl,
          collapseRunsSpec_cons, if_pos hx, ih 1, if_neg (Nat.one_ne_zero)]
      · rw [if_pos hx, if_neg (by omega), ih (c + 1),
          if_neg (Nat.succ_ne_zero c), if_neg hc, List.dropWhile_cons,
          if_pos (by rw [hxe]; rfl)]
    · have hxe : x.isEmpty = false := by
        cases x with
        | nil => exact absurd rfl hx
        | cons a l => rfl
      rw [if_neg hx, ih 0, if_pos rfl]
      by_cases hc : c = 0
      · rw [if_pos hc, collapseRunsSpec_cons, if_neg hx]
      · rw [if_neg hc, List.dropWhile_cons, hxe, if_neg (by simp),
          collapseRunsSpec_cons, if_neg hx]

theorem map_eq_self_of_mem {α : Type} (f : α → α) (l : List α)
    (h : ∀ x ∈ l, f x = x) : l.map f = l := by
  induction l with
  | nil => rfl
  | cons a l ih =>
    rw [List.map_cons, h a (List.mem_cons_self _ _),
      ih (fun x hx => h x (List.mem_cons_of_mem _ hx))]

theorem unifyChars_idem (s : List Char) :
    unifyChars (unifyChars s) = unifyChars s := by
  set ys := collapseBlanks 0 ((splitNl s).map trimChars) with hys
  have hUs : unifyChars s = joinLines ys := by rw [unifyChars, ← hys]
  have hysne : ys ≠ [] := by
    rcases hsp : splitNl s with _ | ⟨l, ls⟩
    · exact absurd hsp (splitNl_ne_nil s)
    · rw [hys, hsp, List.map_cons, collapseBlanks_cons_zero]
      simp
  have hmem : ∀ y ∈ ys, ∃ z, z ∈ splitNl s ∧ y = trimChars z := by
    intro y hy
    have hmem2 := mem_collapseBlanks _ _ _ (hys ▸ hy)
    rw [List.mem_map] at hmem2
    obtain ⟨z, hz, hzy⟩ := hmem2
    exact ⟨z, hz, hzy.symm⟩
  have hnl : ∀ y ∈ ys, '\n' ∉ y := by
    intro y hy
    obtain ⟨z, hz, rfl⟩ := hmem y hy
    exact fun hin => nl_not_mem_splitNl s z hz (mem_trimChars _ _ hin)
  have htrim : ∀ y ∈ ys, trimChars y = y := by
    intro y hy
    obtain ⟨z, hz, rfl⟩ := hmem y hy
    exact trimChars_idem z
  have hnc : noConsecBlank ys := by
    rw [hys]
    exact (collapseBlanks_noConsec _ 0).1
  rw [hUs, unifyChars, splitNl_joinLines ys hysne hnl,
    map_eq_self_of_mem _ _ htrim,
    collapseBlanks_eq_self ys 0 hnc (fun y ys2 hy hl => rfl)]

/-! ## Flow-level helper lemmas -/

theorem can_send_fst (log : LastResponseLog) (now : Int) (a : String) :
    (can_send log now a).1 =
      match lookupAddr log.last_response_date a with
      | some v => is_too_old log now v
      | none => true := rfl

theorem can_send_snd (log : LastResponseLog) (now : Int) (a : String) :
    (can_send log now a).2 = log := rfl

theorem log_send_map (log : LastResponseLog) (now : Int) (a : String) :
    (log_send log now a).last_response_date =
      (a, now) :: log.last_response_date.filter
        (fun kv => !(kv.1 == a) && !(is_too_old log now kv.2)) := by
  show chashmap_insert
      (chashmap_retain log.last_response_date
        (fun _ v => !(is_too_old log now v))) a now = _
  rw [chashmap_insert, chashmap_retain, List.filter_filter]

theorem log_send_time (log : LastResponseLog) (now : Int) (a : String) :
    (log_send log now a).time_between_responses =
      log.time_between_responses := rfl

/-! ## The claims -/

/-- C1: for every address and every state of the deduplication log,
`can_send(address)` returns true if and only if either no entry exists
for that address, or the existing entry's timestamp is older than the
cooldown window, where "older" means the elapsed time in whole minutes
(computed against the current time) is strictly greater than the
configured threshold. -/
theorem claim_C1 (log : LastResponseLog) (now : Int) (a : String) :
    (can_send log now a).1 = true ↔
      lookupAddr log.last_response_date a = none ∨
        ∃ t, lookupAddr log.last_response_date a = some t ∧
          num_minutes (now - t) > log.time_between_responses.val := by
  rw [can_send_fst]
  cases h : lookupAddr log.last_response_date a with
  | none => simp
  | some t => simp [is_too_old]

/-- C2: `log_send(address)` first removes exactly those entries whose
elapsed whole minutes are strictly greater than the cooldown threshold
(entries not strictly older are retained), and then inserts or
overwrites the entry for the given address with the current timestamp;
in particular, starting from a log with one fresh and one stale entry,
after `log_send` for a third address the stale entry is gone and the
fresh one remains.  (The `Nodup` hypothesis restricts to the reachable
map states: a `CHashMap` holds at most one entry per key.) -/
theorem claim_C2 (log : LastResponseLog) (now : Int) (a b : String)
    (hb : b ≠ a)
    (hnd : (log.last_response_date.map Prod.fst).Nodup) :
    (lookupAddr (log_send log now a).last_response_date b =
      (lookupAddr log.last_response_date b).bind
        (fun t => if is_too_old log now t then none else some t)) ∧
    lookupAddr (log_send log now a).last_response_date a = some now ∧
    lookupAddr (log_send ⟨⟨10⟩, [("fresh@x", 9940), ("stale@x", 6000)]⟩
      10000 "third@x").last_response_date "stale@x" = none ∧
    lookupAddr (log_send ⟨⟨10⟩, [("fresh@x", 9940), ("stale@x", 6000)]⟩
      10000 "third@x").last_response_date "fresh@x" = some 9940 ∧
    lookupAddr (log_send ⟨⟨10⟩, [("fresh@x", 9940), ("stale@x", 6000)]⟩
      10000 "third@x").last_response_date "third@x" = some 10000 := by
  refine ⟨?_, ?_, by decide, by decide, by decide⟩
  · rw [log_send_map, lookupAddr_cons, if_neg (fun h => hb h.symm),
      lookupAddr_filter _ _ _ hnd]
    cases h : lookupAddr log.last_response_date b with
    | none => rfl
    | some t =>
      have hba : (b == a) = false := by
        simp only [beq_eq_false_iff_ne, ne_eq]
        exact hb
      simp only [Option.some_bind, hba]
      cases hto : is_too_old log now t <;> simp
  · rw [log_send_map, lookupAddr_cons, if_pos rfl]

/-- Witness for C2 at a concrete log: the fresh entry survives a
`log_send` for a third address. -/
theorem claim_C2_witness :
    ("fresh@x" : String) ≠ "third@x" ∧
    ((([("fresh@x", 9940), ("stale@x", 6000)] : DedupMap).map
      Prod.fst).Nodup) ∧
    lookupAddr (log_send ⟨⟨10⟩, [("fresh@x", 9940), ("stale@x", 6000)]⟩
      10000 "third@x").last_response_date "fresh@x" = some 9940 :=
  ⟨by decide, by decide,
    (claim_C2 ⟨⟨10⟩, [("fresh@x", 9940), ("stale@x", 6000)]⟩ 10000
      "third@x" "fresh@x" (by decide) (by decide)).1.trans (by decide)⟩

/-- C5: `unify_new_lines` is idempotent: for every input string `x`,
`unify_new_lines(unify_new_lines(x))` equals `unify_new_lines(x)`. -/
theorem claim_C5 (x : String) :
    unify_new_lines (unify_new_lines x) = unify_new_lines x :=
  congrArg String.mk (unifyChars_idem x.data)

/-- C6: for every input string, `unify_new_lines` splits the input on
newline characters, trims surrounding whitespace from each resulting
line, collapses every run of two or more consecutive blank lines to
exactly one blank line (`collapseRunsSpec`, written from the spec's
words), and rejoins the lines with newline characters; in particular
the body `"Line1\n\n\n\nLine2"` is transformed to `"Line1\n\nLine2"`. -/
theorem claim_C6 :
    (∀ s : String, unify_new_lines s = unify_new_lines_spec s) ∧
      unify_new_lines "Line1\n\n\n\nLine2" = "Line1\n\nLine2" := by
  constructor
  · intro s
    rw [unify_new_lines, unify_new_lines_spec, unifyChars,
      collapseBlanks_eq_spec, if_pos rfl]
  · decide

/-- C8: for every address: `can_send(address)` is true while no entry
for the address exists; immediately after `log_send(address)` (with a
non-negative configured cooldown) `can_send(address)` is false; and
`can_send(address)` becomes true again once the whole minutes elapsed
since that `log_send` strictly exceed the cooldown threshold. -/
theorem claim_C8 (log : LastResponseLog) (a : String) (t t2 : Int)
    (hthr : 0 ≤ log.time_between_responses.val) :
    (lookupAddr log.last_response_date a = none →
      (can_send log t a).1 = true) ∧
    (can_send (log_send log t a) t a).1 = false ∧
    (log.time_between_responses.val < num_minutes (t2 - t) →
      (can_send (log_send log t a) t2 a).1 = true) := by
  have hz : num_minutes (t - t) = 0 := by
    rw [sub_self]
    rfl
  refine ⟨fun h => ?_, ?_, fun h => ?_⟩
  · rw [can_send_fst, h]
  · rw [can_send_fst, log_send_map, lookupAddr_cons, if_pos rfl]
    show is_too_old (log_send log t a) t t = false
    rw [is_too_old, log_send_time, hz]
    exact decide_eq_false (not_lt.mpr hthr)
  · rw [can_send_fst, log_send_map, lookupAddr_cons, if_pos rfl]
    show is_too_old (log_send log t a) t2 t = true
    rw [is_too_old, log_send_time]
    exact decide_eq_true h

/-- Witness for C8: an empty log with a 10-minute cooldown, a send at
t = 5000 s, and a recheck at t = 5700 s (11 whole minutes later). -/
theorem claim_C8_witness :
    (0 : Int) ≤ (⟨⟨10⟩, []⟩ : LastResponseLog).time_between_responses.val ∧
    ((lookupAddr (⟨⟨10⟩, []⟩ : LastResponseLog).last_response_date
        "a@example.com" = none →
      (can_send ⟨⟨10⟩, []⟩ 5000 "a@example.com").1 = true) ∧
    (can_send (log_send ⟨⟨10⟩, []⟩ 5000 "a@example.com") 5000
      "a@example.com").1 = false ∧
    ((⟨⟨10⟩, []⟩ : LastResponseLog).time_between_responses.val <
        num_minutes (5700 - 5000) →
      (can_send (log_send ⟨⟨10⟩, []⟩ 5000 "a@example.com") 5700
        "a@example.com").1 = true)) :=
  ⟨by decide, claim_C8 ⟨⟨10⟩, []⟩ "a@example.com" 5000 5700 (by decide)⟩

/-- C10: `can_send` never modifies the deduplication log: the state
component it returns is the unmodified input log, so every address maps
to the same timestamp before and after the call, whatever the call
returns. -/
theorem claim_C10 (log : LastResponseLog) (now : Int) (a : String) :
    (can_send log now a).2 = log ∧
      ∀ b, lookupAddr ((can_send log now a).2).last_response_date b =
        lookupAddr log.last_response_date b :=
  ⟨rfl, fun _ => rfl⟩

/-- Counterexample to C3 as stated: a verified email whose From address
has `can_send` false, but whose message-id extraction fails ("no
message id found" happens before the dedup check in the flow), makes
the request fail rather than complete with `"Message Processed"`. -/
theorem claim_C3_counterexample :
    (⟨true, Except.error (MailgunError.MailgunError "no message id found"),
      Except.ok ()⟩ : MailgunApi).hmac_ok = true ∧
    (can_send ⟨⟨10⟩, [("a@example.com", 5000)]⟩ 5000 "a@example.com").1
      = false ∧
    (send_no_reply_template
      ⟨true, Except.error (MailgunError.MailgunError "no message id found"),
        Except.ok ()⟩
      ⟨⟨10⟩, [("a@example.com", 5000)]⟩ 5000 "template1"
      ⟨"s@example.com", "a@example.com", "Hello", "body", 0, "tok", "sig",
        "headers"⟩).result ≠ Except.ok "Message Processed" := by
  decide

/-- C3 (amended): in the auto-reply flow, for every verified email
whose message-id extraction succeeds and whose From address has
`can_send` returning false, no outbound email call is made, the
deduplication log is not updated, and the request still completes
successfully with the body `"Message Processed"`; suppression is never
surfaced as an error. -/
theorem claim_C3 (api : MailgunApi) (log : LastResponseLog) (now : Int)
    (template : String) (email : MailgunEmailReceived) (mid : String)
    (h1 : api.hmac_ok = true) (h2 : api.message_id = Except.ok mid)
    (h3 : (can_send log now email.«from»).1 = false) :
    send_no_reply_template api log now template email =
      ⟨log, [], Except.ok "Message Processed"⟩ := by
  have hv : verify_hmac api = Except.ok () := by
    rw [verify_hmac, h1, if_pos rfl]
  have hm : get_message_id api = Except.ok mid := h2
  simp only [send_no_reply_template, hv, hm, h3, if_false,
    Bool.false_eq_true]
  rw [can_send_snd]

/-- Witness for the amended C3: a verified email with a fresh dedup
entry for its From address is suppressed without touching the log. -/
theorem claim_C3_witness :
    (⟨true, Except.ok "mid-1", Except.ok ()⟩ : MailgunApi).hmac_ok
      = true ∧
    (⟨true, Except.ok "mid-1", Except.ok ()⟩ : MailgunApi).message_id
      = Except.ok "mid-1" ∧
    (can_send ⟨⟨10⟩, [("a@example.com", 5000)]⟩ 5000 "a@example.com").1
      = false ∧
    send_no_reply_template ⟨true, Except.ok "mid-1", Except.ok ()⟩
      ⟨⟨10⟩, [("a@example.com", 5000)]⟩ 5000 "template1"
      ⟨"s@example.com", "a@example.com", "Hello", "body", 0, "tok", "sig",
        "headers"⟩ =
      ⟨⟨⟨10⟩, [("a@example.com", 5000)]⟩, [],
        Except.ok "Message Processed"⟩ :=
  ⟨rfl, rfl, by decide,
    claim_C3 ⟨true, Except.ok "mid-1", Except.ok ()⟩
      ⟨⟨10⟩, [("a@example.com", 5000)]⟩ 5000 "template1"
      ⟨"s@example.com", "a@example.com", "Hello", "body", 0, "tok", "sig",
        "headers"⟩ "mid-1" rfl rfl (by decide)⟩

/-- C4: in both the auto-reply flow and the forward flow, if signature
verification fails then the flow aborts before any other action: the
deduplication log is unchanged, no outbound email is dispatched, no
chat message is posted, and the failure is surfaced as a client error
mapped to HTTP status 400 with a JSON body containing a code and a
message. -/
theorem claim_C4 (api : MailgunApi) (slack : SlackApi)
    (log : LastResponseLog) (now : Int) (template channel : String)
    (email : MailgunEmailReceived) (h : api.hmac_ok = false) :
    send_no_reply_template api log now template email =
      ⟨log, [], Except.error
        (MailgunError.HmacError "HMAC verification failed")⟩ ∧
    forward_email_to_slack api slack channel email =
      ⟨[], Except.error (ForwardError.mailgun
        (MailgunError.HmacError "HMAC verification failed"))⟩ ∧
    recover_error (MailgunError.HmacError "HMAC verification failed") =
      (400, ⟨400, "HMAC verification failed"⟩) := by
  have hv : verify_hmac api =
      Except.error (MailgunError.HmacError "HMAC verification failed") := by
    rw [verify_hmac, h]
    rfl
  exact ⟨by simp only [send_no_reply_template, hv],
    by simp only [forward_email_to_slack, hv], rfl⟩

/-- Witness for C4: a concrete request whose signature check fails. -/
theorem claim_C4_witness :
    (⟨false, Except.ok "mid-1", Except.ok ()⟩ : MailgunApi).hmac_ok
      = false ∧
    (send_no_reply_template ⟨false, Except.ok "mid-1", Except.ok ()⟩
      ⟨⟨10⟩, []⟩ 5000 "template1"
      ⟨"s@example.com", "a@example.com", "Hello", "body", 0, "tok", "sig",
        "headers"⟩ =
      ⟨⟨⟨10⟩, []⟩, [], Except.error
        (MailgunError.HmacError "HMAC verification failed")⟩ ∧
    forward_email_to_slack ⟨false, Except.ok "mid-1", Except.ok ()⟩
      ⟨Except.ok ⟨"111.222"⟩, Except.ok ⟨"111.333"⟩⟩ "C1"
      ⟨"s@example.com", "a@example.com", "Hello", "body", 0, "tok", "sig",
        "headers"⟩ =
      ⟨[], Except.error (ForwardError.mailgun
        (MailgunError.HmacError "HMAC verification failed"))⟩ ∧
    recover_error (MailgunError.HmacError "HMAC verification failed") =
      (400, ⟨400, "HMAC verification failed"⟩)) :=
  ⟨rfl, claim_C4 ⟨false, Except.ok "mid-1", Except.ok ()⟩
    ⟨Except.ok ⟨"111.222"⟩, Except.ok ⟨"111.333"⟩⟩ ⟨⟨10⟩, []⟩ 5000
    "template1" "C1"
    ⟨"s@example.com", "a@example.com", "Hello", "body", 0, "tok", "sig",
      "headers"⟩ rfl⟩

/-- C7: in the forward flow, for every verified email: a first chat
message containing the email subject is sent to the target channel; the
second chat message is attempted only if the first succeeds, is
threaded to the first via the timestamp returned by the first call, and
contains the normalized email body wrapped in a code block plus the
original sender's address; if either step fails the whole forward
operation fails with that step's error, and on success the request
returns the body `"Sent"`. -/
theorem claim_C7 (api : MailgunApi) (slack : SlackApi) (channel : String)
    (email : MailgunEmailReceived) (h : api.hmac_ok = true) :
    (∀ e, slack.first_result = Except.error e →
      forward_email_to_slack api slack channel email =
        ⟨[⟨channel, "Email Received: " ++ email.subject, none, true⟩],
          Except.error (ForwardError.slack e)⟩) ∧
    (∀ r1, slack.first_result = Except.ok r1 →
      (∀ e2, slack.second_result = Except.error e2 →
        forward_email_to_slack api slack channel email =
          ⟨[⟨channel, "Email Received: " ++ email.subject, none, true⟩,
            ⟨channel,
              "```" ++ unify_new_lines email.body_plain ++ "```\n(from: "
                ++ email.sender ++ ")", some r1.ts, true⟩],
            Except.error (ForwardError.slack e2)⟩) ∧
      (∀ r2, slack.second_result = Except.ok r2 →
        forward_email_to_slack api slack channel email =
          ⟨[⟨channel, "Email Received: " ++ email.subject, none, true⟩,
            ⟨channel,
              "```" ++ unify_new_lines email.body_plain ++ "```\n(from: "
                ++ email.sender ++ ")", some r1.ts, true⟩],
            Except.ok "Sent"⟩)) := by
  have hv : verify_hmac api = Except.ok () := by
    rw [verify_hmac, h, if_pos rfl]
  refine ⟨fun e he => ?_, fun r1 hr1 => ⟨fun e2 he2 => ?_, fun r2 hr2 => ?_⟩⟩
  · simp only [forward_email_to_slack, hv, he]
  · simp only [forward_email_to_slack, hv, hr1, he2]
  · simp only [forward_email_to_slack, hv, hr1, hr2]

/-- Witness for C7: a verified email forwarded with both chat calls
succeeding; the second message is threaded to the first's timestamp and
carries the normalized body. -/
theorem claim_C7_witness :
    (⟨true, Except.ok "mid-1", Except.ok ()⟩ : MailgunApi).hmac_ok
      = true ∧
    (⟨Except.ok ⟨"111.222"⟩, Except.ok ⟨"111.333"⟩⟩ : SlackApi).first_result
      = Except.ok ⟨"111.222"⟩ ∧
    (⟨Except.ok ⟨"111.222"⟩, Except.ok ⟨"111.333"⟩⟩ : SlackApi).second_result
      = Except.ok ⟨"111.333"⟩ ∧
    forward_email_to_slack ⟨true, Except.ok "mid-1", Except.ok ()⟩
      ⟨Except.ok ⟨"111.222"⟩, Except.ok ⟨"111.333"⟩⟩ "C1"
      ⟨"s@example.com", "a@example.com", "Hello", "Line1\n\n\n\nLine2", 0,
        "tok", "sig", "headers"⟩ =
      ⟨[⟨"C1", "Email Received: Hello", none, true⟩,
        ⟨"C1", "```Line1\n\nLine2```\n(from: s@example.com)",
          some "111.222", true⟩],
        Except.ok "Sent"⟩ := by
  refine ⟨rfl, rfl, rfl, ?_⟩
  have hout := ((claim_C7 ⟨true, Except.ok "mid-1", Except.ok ()⟩
    ⟨Except.ok ⟨"111.222"⟩, Except.ok ⟨"111.333"⟩⟩ "C1"
    ⟨"s@example.com", "a@example.com", "Hello", "Line1\n\n\n\nLine2", 0,
      "tok", "sig", "headers"⟩ rfl).2 ⟨"111.222"⟩ rfl).2 ⟨"111.333"⟩ rfl
  rw [hout]
  decide

/-- C9: for every multipart form input, if any of the eight required
fields (sender, from, subject, body-plain, timestamp, token, signature,
message-headers) is absent after the collection loop, the conversion to
a `MailgunEmailReceived` record fails with the missing-fields error
rather than partially succeeding; if all eight are present, the record
is constructed with exactly those collected values. -/
theorem claim_C9 (parts : List (String × Option String)) :
    (∀ r, multipart_to_mailgun parts = Except.ok r ↔
      collect_fields parts =
        ⟨some r.sender, some r.«from», some r.subject, some r.body_plain,
          some r.timestamp, some r.token, some r.signature,
          some r.message_headers⟩) ∧
    (multipart_to_mailgun parts = Except.error MultipartError.MissingFields ↔
      ((collect_fields parts).sender = none ∨
       (collect_fields parts).«from» = none ∨
       (collect_fields parts).subject = none ∨
       (collect_fields parts).body_plain = none ∨
       (collect_fields parts).timestamp = none ∨
       (collect_fields parts).token = none ∨
       (collect_fields parts).signature = none ∨
       (collect_fields parts).message_headers = none)) := by
  constructor
  · intro r
    rcases r with ⟨rs, rf, rsub, rbp, rts, rtok, rsig, rmh⟩
    rcases h : collect_fields parts with ⟨s, f, sub, bp, ts, tok, sig, mh⟩
    cases s <;> cases f <;> cases sub <;> cases bp <;> cases ts <;>
      cases tok <;> cases sig <;> cases mh <;>
      simp [multipart_to_mailgun, h]
  · rcases h : collect_fields parts with ⟨s, f, sub, bp, ts, tok, sig, mh⟩
    cases s <;> cases f <;> cases sub <;> cases bp <;> cases ts <;>
      cases tok <;> cases sig <;> cases mh <;>
      simp [multipart_to_mailgun, h]
